import Mathlib

/-!
Verification of the ranking-to-geometry projection and viewport engine of the
rubber-comparison chart application (`src/app.js`), via a shallow embedding in
Lean 4.  Numbers are modelled as exact rationals (`ℚ`); the JavaScript source
performs the same field arithmetic in IEEE doubles.
-/

/-! ## Chart items

An item as seen by the declutterer and the viewport controller: chart
coordinates `x`, `y` and a display `priority` (smaller = labeled first).
`tag` is a stable identity so distinct items with equal fields stay distinct. -/

structure Rubber where
  tag : ℕ
  x : ℚ
  y : ℚ
  priority : ℤ
deriving DecidableEq

/-! ## Declutterer (`computeVisibleRubbers`, app.js lines 1239–1291) -/

/-- Pixel projection used by the declutterer (app.js lines 1267–1270):
`px = ((dataX - xRange[0]) / xSpan) * plotWidth`, symmetric for `py`. -/
def toPixel (xRange yRange : ℚ × ℚ) (w h : ℚ) (r : Rubber) : ℚ × ℚ :=
  (((r.x - xRange.1) / (xRange.2 - xRange.1)) * w,
   ((r.y - yRange.1) / (yRange.2 - yRange.1)) * h)

/-- One occupied position blocks a candidate pixel position when it is within
the threshold on **both** axes (app.js line 1282:
`Math.abs(px - occ.px) < MIN_DIST_X && Math.abs(py - occ.py) < MIN_DIST_Y`). -/
def blockedB (tx ty : ℚ) (p q : ℚ × ℚ) : Bool :=
  decide (|p.1 - q.1| < tx) && decide (|p.2 - q.2| < ty)

/-- Stable insertion of an item into a list already sorted by `priority`:
the new item (originally earlier) goes before any equal-priority item. -/
def insertByPriority (r : Rubber) : List Rubber → List Rubber
  | [] => [r]
  | x :: xs =>
    if x.priority < r.priority then x :: insertByPriority r xs
    else r :: x :: xs

/-- Models `[...filteredData].sort((a, b) => a.priority - b.priority)`
(app.js line 1272); `Array.prototype.sort` is stable, so ties keep
their original order, which this insertion sort reproduces. -/
def sortByPriority (l : List Rubber) : List Rubber :=
  l.foldr insertByPriority []

/-- The greedy loop of app.js lines 1279–1288: walk the sorted candidates,
accept an item when no already-occupied pixel position blocks it, and record
the accepted position in `occ`. -/
def visibleAux (toPix : Rubber → ℚ × ℚ) (tx ty : ℚ) (occ : List (ℚ × ℚ)) :
    List Rubber → List Rubber
  | [] => []
  | r :: rest =>
    let p := toPix r
    if occ.any (blockedB tx ty p) then visibleAux toPix tx ty occ rest
    else r :: visibleAux toPix tx ty (occ ++ [p]) rest

/-- `computeVisibleRubbers` (app.js lines 1239–1291) with the two pixel
thresholds as parameters; the layout context (`xRange`, `yRange`, pixel
width `w` and height `h`) is passed in place of the chart DOM state read
at lines 1245–1250.  Empty input returns `[]` (line 1240); a degenerate
(zero or negative span) window returns the candidates unchanged
(line 1265). -/
def computeVisibleCore (xRange yRange : ℚ × ℚ) (w h tx ty : ℚ)
    (filteredData : List Rubber) : List Rubber :=
  if filteredData = [] then []
  else
    let xSpan := xRange.2 - xRange.1
    let ySpan := yRange.2 - yRange.1
    if xSpan ≤ 0 ∨ ySpan ≤ 0 then filteredData
    else visibleAux (toPixel xRange yRange w h) tx ty [] (sortByPriority filteredData)

/-- Minimum pixel distance threshold in x (app.js line 1276). -/
def MIN_DIST_X : ℚ := 55

/-- Minimum pixel distance threshold in y (app.js line 1277). -/
def MIN_DIST_Y : ℚ := 24

/-- `computeVisibleRubbers` with the thresholds hardcoded in the source. -/
def computeVisibleRubbers (xRange yRange : ℚ × ℚ) (w h : ℚ)
    (filteredData : List Rubber) : List Rubber :=
  computeVisibleCore xRange yRange w h MIN_DIST_X MIN_DIST_Y filteredData

/-! ## Declutterer, specified

The specification's description of the same selection, written from its words
rather than the source: sort ascending by priority (stable), then greedily
accept an item exactly when no already-accepted item's pixel position is
within the threshold on both axes (reject only when both axes are within
threshold).  Used to compare `computeVisibleRubbers` against the spec. -/

/-- A candidate position is acceptable against the accepted positions when it
is not within both thresholds of any of them. -/
def specAccepts (tx ty : ℚ) (p : ℚ × ℚ) (acc : List (ℚ × ℚ)) : Prop :=
  ∀ q ∈ acc, ¬ (|p.1 - q.1| < tx ∧ |p.2 - q.2| < ty)

instance (tx ty : ℚ) (p : ℚ × ℚ) (acc : List (ℚ × ℚ)) :
    Decidable (specAccepts tx ty p acc) := by
  unfold specAccepts; infer_instance

/-- Greedy pass of the specified declutterer. -/
def declutterSpecAux (toPix : Rubber → ℚ × ℚ) (tx ty : ℚ) (acc : List (ℚ × ℚ)) :
    List Rubber → List Rubber
  | [] => []
  | r :: rest =>
    let p := toPix r
    if specAccepts tx ty p acc then
      r :: declutterSpecAux toPix tx ty (acc ++ [p]) rest
    else declutterSpecAux toPix tx ty acc rest

/-- The declutter selection as the specification words it. -/
def declutterSpec (xRange yRange : ℚ × ℚ) (w h tx ty : ℚ)
    (filteredData : List Rubber) : List Rubber :=
  declutterSpecAux (toPixel xRange yRange w h) tx ty [] (sortByPriority filteredData)

/-! ## Viewport controller: autoscale bounds
(`getAutoscaleBounds`, `viewCoversDataBounds`, `clampRangeToBounds`,
app.js lines 1178–1198) -/

/-- Autoscale bounds: a pair of closed intervals. -/
structure Bounds where
  x : ℚ × ℚ
  y : ℚ × ℚ
deriving DecidableEq

/-- `Math.min(...xs)` over a nonempty list given as head and tail. -/
def listMin (a : ℚ) (l : List ℚ) : ℚ := l.foldl min a

/-- `Math.max(...xs)` over a nonempty list given as head and tail. -/
def listMax (a : ℚ) (l : List ℚ) : ℚ := l.foldl max a

/-- `getAutoscaleBounds` (app.js lines 1178–1187): tight bounding box of the
items' coordinates plus `max(0.5, span * 0.05)` padding per side; `null`
for an empty item list. -/
def getAutoscaleBounds (rubbers : List Rubber) : Option Bounds :=
  match rubbers with
  | [] => none
  | r :: rest =>
    let minX := listMin r.x (rest.map (·.x))
    let maxX := listMax r.x (rest.map (·.x))
    let minY := listMin r.y (rest.map (·.y))
    let maxY := listMax r.y (rest.map (·.y))
    let padX := max 0.5 ((maxX - minX) * 0.05)
    let padY := max 0.5 ((maxY - minY) * 0.05)
    some ⟨(minX - padX, maxX + padX), (minY - padY, maxY + padY)⟩

/-- `viewCoversDataBounds` (app.js lines 1189–1194): with no bounds the view
counts as covering; otherwise both ranges must contain the bounds. -/
def viewCoversDataBounds (rubbers : List Rubber) (xRange yRange : ℚ × ℚ) : Bool :=
  match getAutoscaleBounds rubbers with
  | none => true
  | some bounds =>
    decide (xRange.1 ≤ bounds.x.1 ∧ bounds.x.2 ≤ xRange.2 ∧
            yRange.1 ≤ bounds.y.1 ∧ bounds.y.2 ≤ yRange.2)

/-- `clampRangeToBounds` (app.js lines 1196–1198). -/
def clampRangeToBounds (range bounds : ℚ × ℚ) : ℚ × ℚ :=
  (max range.1 bounds.1, min range.2 bounds.2)

/-! ## Viewport controller: zoom (`computeZoomedRanges`, app.js lines 1834–1873) -/

/-- Minimum span fraction for zoom-in clamping (app.js line 1853). -/
def MIN_SPAN_FRACTION : ℚ := 0.05

/-- The clamped scale of app.js lines 1849–1859: when bounds exist and
`scale < 1`, raise the scale so neither resulting span can drop below
`MIN_SPAN_FRACTION` of the corresponding bounds span. -/
def clampedScaleOf (bounds : Option Bounds) (xSpan ySpan scale : ℚ) : ℚ :=
  match bounds with
  | none => scale
  | some b =>
    if scale < 1 then
      let minXSpan := (b.x.2 - b.x.1) * MIN_SPAN_FRACTION
      let minYSpan := (b.y.2 - b.y.1) * MIN_SPAN_FRACTION
      let scaleForMinX := if 0 < xSpan then minXSpan / xSpan else scale
      let scaleForMinY := if 0 < ySpan then minYSpan / ySpan else scale
      max scale (max scaleForMinX scaleForMinY)
    else scale

/-- `computeZoomedRanges` (app.js lines 1834–1873).  The module-level
`currentFilteredData` read at line 1839 is passed as `filteredData`.
Returns `none` when the zoom is blocked (degenerate spans, or a zoom-out
request while the view already covers the data bounds). -/
def computeZoomedRanges (filteredData : List Rubber) (xRange yRange : ℚ × ℚ)
    (scale anchorFx anchorFy : ℚ) : Option ((ℚ × ℚ) × (ℚ × ℚ)) :=
  let xSpan := xRange.2 - xRange.1
  let ySpan := yRange.2 - yRange.1
  if xSpan ≤ 0 ∨ ySpan ≤ 0 then none
  else
    let autoscaleBounds := getAutoscaleBounds filteredData
    if 1 < scale ∧ autoscaleBounds.isSome ∧
        viewCoversDataBounds filteredData xRange yRange then none
    else
      let xCenter := xRange.1 + anchorFx * xSpan
      let yCenter := yRange.1 + anchorFy * ySpan
      let clampedScale := clampedScaleOf autoscaleBounds xSpan ySpan scale
      let newXSpan := xSpan * clampedScale
      let newYSpan := ySpan * clampedScale
      let newXRange := (xCenter - anchorFx * newXSpan, xCenter + (1 - anchorFx) * newXSpan)
      let newYRange := (yCenter - anchorFy * newYSpan, yCenter + (1 - anchorFy) * newYSpan)
      match autoscaleBounds with
      | some b =>
        if 1 < clampedScale then
          some (clampRangeToBounds newXRange b.x, clampRangeToBounds newYRange b.y)
        else some (newXRange, newYRange)
      | none => some (newXRange, newYRange)

/-! ## ScaleConverter (`interpolateScale`, app.js lines 49–57) -/

/-- Piecewise-linear interpolation between two anchor scales
(app.js lines 49–57).  Walks the adjacent anchor segments; at the first
segment with `value <= fromPts[i + 1]`, or at the last segment, returns
`toPts[i] + t * (toPts[i + 1] - toPts[i])` with
`t = (value - fromPts[i]) / (fromPts[i + 1] - fromPts[i])`; with fewer than
two anchors the loop body never runs and the value is returned unchanged. -/
def interpolateScale (value : ℚ) : List ℚ → List ℚ → ℚ
  | a0 :: a1 :: arest, b0 :: b1 :: brest =>
    if value ≤ a1 ∨ arest = [] then
      b0 + (value - a0) / (a1 - a0) * (b1 - b0)
    else interpolateScale value (a1 :: arest) (b1 :: brest)
  | _, _ => value

/-- `HARDNESS_SCALES.Germany` (app.js line 43). -/
def HARDNESS_SCALES_Germany : List ℚ := [40, 47.5, 55]

/-- `HARDNESS_SCALES.Japan` (app.js line 44). -/
def HARDNESS_SCALES_Japan : List ℚ := [33, 36, 44]

/-! ## Data loading (`loadRubberData` and helpers, app.js lines 230–375)

Rank tables are lists of `(brand, name)` entries; an item's rank is its
0-based index in the table.  Brand, name and abbreviation are strings,
as in the source. -/

/-- One entry of a rank table. -/
structure RankEntry where
  brand : String
  name : String
deriving DecidableEq

/-- A raw catalog item as relevant to ranking lookups. -/
structure RawRubber where
  brand : String
  name : String
  abbr : String
deriving DecidableEq

/-- Brand normalization of `findRubberRank` (app.js line 233):
`(brand || '').trim().toLowerCase()`. -/
def normBrand (s : String) : String := s.trim.toLower

/-- Index-tracking loop of `findRubberRank` (app.js lines 237–245). -/
def findRubberRankAux (rubber : RawRubber) (i : ℕ) : List RankEntry → ℤ
  | [] => -1
  | e :: es =>
    if normBrand e.brand = normBrand rubber.brand ∧
        (e.name = rubber.name ∨ e.name = rubber.abbr) then (i : ℤ)
    else findRubberRankAux rubber (i + 1) es

/-- `findRubberRank` (app.js lines 232–246): 0-based position of the first
entry whose normalized brand matches and whose name equals the rubber's
name or abbreviation; `-1` when absent. -/
def findRubberRank (rubber : RawRubber) (rankingArray : List RankEntry) : ℤ :=
  findRubberRankAux rubber 0 rankingArray

/-- A loaded item after the ranking pass of `loadRubberData`
(app.js lines 345–370).  `x`/`y` are `none` where the source stores `null`. -/
structure LoadedRubber where
  raw : RawRubber
  x : Option ℤ
  y : Option ℤ
  spinRank : Option ℤ
  speedRank : Option ℤ
  controlRank : Option ℤ
  controlTotal : ℕ
  priority : ℤ
  bestseller : Bool
deriving DecidableEq

/-- The per-item body of the ranking loop in `loadRubberData`
(app.js lines 345–370): chart coordinates from the spin/speed tables
(`rank 0 → highest value`), 1-based display ranks, and display priority
(bestsellers first, then the priority ranking, default 999). -/
def applyRankings (spinT speedT controlT priorityRanking bestsellerRanking : List RankEntry)
    (raw : RawRubber) : LoadedRubber :=
  let spinIdx := findRubberRank raw spinT
  let speedIdx := findRubberRank raw speedT
  let controlIdx := findRubberRank raw controlT
  let popIdx := findRubberRank raw priorityRanking
  let bestsellerIdx := findRubberRank raw bestsellerRanking
  { raw := raw
    x := if 0 ≤ spinIdx then some ((spinT.length : ℤ) - spinIdx) else none
    y := if 0 ≤ speedIdx then some ((speedT.length : ℤ) - speedIdx) else none
    spinRank := if 0 ≤ spinIdx then some (spinIdx + 1) else none
    speedRank := if 0 ≤ speedIdx then some (speedIdx + 1) else none
    controlRank := if 0 ≤ controlIdx then some (controlIdx + 1) else none
    controlTotal := controlT.length
    priority :=
      if 0 ≤ bestsellerIdx then bestsellerIdx + 1
      else if 0 ≤ popIdx then (bestsellerRanking.length : ℤ) + popIdx + 1
      else 999
    bestseller := 0 ≤ bestsellerIdx }

/-- The visualized item set built by `loadRubberData` (app.js line 373):
only rubbers appearing in both the spin and the speed rankings
(`r.x !== null && r.y !== null`) are kept. -/
def loadRubberData (spinT speedT controlT priorityRanking bestsellerRanking : List RankEntry)
    (raws : List RawRubber) : List LoadedRubber :=
  (raws.map (applyRankings spinT speedT controlT priorityRanking bestsellerRanking)).filter
    (fun r => r.x.isSome && r.y.isSome)

/-! ## Control tiers (`getControlTierFromRank`, app.js lines 723–737) -/

/-- The three control tiers. -/
inductive Tier where
  | Easy
  | Med
  | Hard
deriving DecidableEq

/-- `getControlBoundsFromData` (app.js lines 710–721): minimum and maximum of
the finite control ranks of the loaded data; `null` when there are none.
These populate `controlFilterState.rankMin` / `rankMax` (lines 785–786). -/
def controlBounds (rubbers : List LoadedRubber) : Option (ℤ × ℤ) :=
  match rubbers.filterMap (·.controlRank) with
  | [] => none
  | a :: as => some (as.foldl min a, as.foldl max a)

/-- `getControlTierFromRank` (app.js lines 723–737): `none` when any of rank,
`rankMin`, `rankMax` is missing or the rank window is empty; otherwise the
rank offset from `rankMin`, clamped to `[0, totalRanks - 1]`, is divided by
`totalRanks = rankMax - rankMin + 1` and bucketed at 40% / 80%. -/
def getControlTierFromRank (rank rankMin rankMax : Option ℤ) : Option Tier :=
  match rank, rankMin, rankMax with
  | some rk, some rmin, some rmax =>
    let totalRanks := rmax - rmin + 1
    if totalRanks ≤ 0 then none
    else
      let zeroBasedRank := max 0 (min (totalRanks - 1) (rk - rmin))
      let pct : ℚ := (zeroBasedRank : ℚ) / (totalRanks : ℚ)
      some (if pct < 0.4 then Tier.Easy else if pct < 0.8 then Tier.Med else Tier.Hard)
  | _, _, _ => none

/-- Modelled from the claim's words, for comparison with the code: the tier
obtained by "normalizing the item's rank into [0,1) over the control
metric's table size" and bucketing with thresholds at 40% and 80%. -/
def specControlTier (rank tableSize : ℤ) : Option Tier :=
  if tableSize ≤ 0 then none
  else
    let pct : ℚ := ((rank - 1 : ℤ) : ℚ) / (tableSize : ℚ)
    some (if pct < 0.4 then Tier.Easy else if pct < 0.8 then Tier.Med else Tier.Hard)

/-! ## Concrete rank tables for the control-tier analysis

A control table of 12 entries of which only five (ranks 5–9) also appear in
the spin and speed tables, so only those five are visualized and the observed
control-rank range is  5..9  while the control table size is 12. -/

/-- A 12-entry control rank table. -/
def c9ControlTable : List RankEntry :=
  [⟨"b", "c1"⟩, ⟨"b", "c2"⟩, ⟨"b", "c3"⟩, ⟨"b", "c4"⟩, ⟨"b", "c5"⟩, ⟨"b", "c6"⟩,
   ⟨"b", "c7"⟩, ⟨"b", "c8"⟩, ⟨"b", "c9"⟩, ⟨"b", "c10"⟩, ⟨"b", "c11"⟩, ⟨"b", "c12"⟩]

/-- Spin and speed table listing only the five items of control ranks 5–9. -/
def c9SpinSpeedTable : List RankEntry :=
  [⟨"b", "c5"⟩, ⟨"b", "c6"⟩, ⟨"b", "c7"⟩, ⟨"b", "c8"⟩, ⟨"b", "c9"⟩]

/-- The five raw catalog items. -/
def c9Raws : List RawRubber :=
  [⟨"b", "c5", "c5"⟩, ⟨"b", "c6", "c6"⟩, ⟨"b", "c7", "c7"⟩,
   ⟨"b", "c8", "c8"⟩, ⟨"b", "c9", "c9"⟩]

/-! ## Theorems

Shared helper lemmas come first, then one theorem per claim (with its
counterexample and witness where applicable). -/

/-- A blocked test is true exactly when both axis distances are within the
thresholds. -/
lemma blockedB_eq_true_iff (tx ty : ℚ) (p q : ℚ × ℚ) :
    blockedB tx ty p q = true ↔ |p.1 - q.1| < tx ∧ |p.2 - q.2| < ty := by
  simp [blockedB]

/-- The blocked test is symmetric in its two positions. -/
lemma blockedB_symm (tx ty : ℚ) (p q : ℚ × ℚ) :
    blockedB tx ty p q = blockedB tx ty q p := by
  simp only [blockedB, abs_sub_comm]

/-- The greedy pass accepts a position exactly when the boolean occupancy test
of the source fails, i.e. when the specification's acceptance predicate
holds. -/
lemma any_blockedB_iff (tx ty : ℚ) (p : ℚ × ℚ) (occ : List (ℚ × ℚ)) :
    occ.any (blockedB tx ty p) = true ↔ ¬ specAccepts tx ty p occ := by
  simp only [List.any_eq_true, blockedB, Bool.and_eq_true, decide_eq_true_eq,
    specAccepts, not_forall]
  tauto

/-- The source's greedy pass and the specification's greedy pass agree from
any accumulator. -/
lemma visibleAux_eq_specAux (toPix : Rubber → ℚ × ℚ) (tx ty : ℚ) (l : List Rubber) :
    ∀ occ, visibleAux toPix tx ty occ l = declutterSpecAux toPix tx ty occ l := by
  induction l with
  | nil => intro occ; rfl
  | cons r rest ih =>
    intro occ
    simp only [visibleAux, declutterSpecAux]
    by_cases h : specAccepts tx ty (toPix r) occ
    · rw [if_neg (fun hc => ((any_blockedB_iff tx ty (toPix r) occ).mp hc) h),
        if_pos h, ih]
    · rw [if_pos ((any_blockedB_iff tx ty (toPix r) occ).mpr h), if_neg h, ih]

/-- Every item accepted by the greedy pass comes from the candidate list. -/
lemma visibleAux_subset (toPix : Rubber → ℚ × ℚ) (tx ty : ℚ) (l : List Rubber) :
    ∀ occ r, r ∈ visibleAux toPix tx ty occ l → r ∈ l := by
  induction l with
  | nil => intro occ r h; simp [visibleAux] at h
  | cons a rest ih =>
    intro occ r h
    simp only [visibleAux] at h
    by_cases hc : occ.any (blockedB tx ty (toPix a)) = true
    · rw [if_pos hc] at h
      exact List.mem_cons_of_mem _ (ih _ _ h)
    · rw [if_neg hc] at h
      rcases List.mem_cons.mp h with rfl | h2
      · exact List.mem_cons_self _ _
      · exact List.mem_cons_of_mem _ (ih _ _ h2)

/-- Separation: the accepted positions are pairwise non-blocking, and none of
them blocks against the initial occupancy list. -/
lemma visibleAux_sep (toPix : Rubber → ℚ × ℚ) (tx ty : ℚ) (l : List Rubber) :
    ∀ occ,
      ((visibleAux toPix tx ty occ l).map toPix).Pairwise
        (fun p q => blockedB tx ty p q = false)
      ∧ ∀ p ∈ (visibleAux toPix tx ty occ l).map toPix, ∀ q ∈ occ,
          blockedB tx ty p q = false := by
  induction l with
  | nil => intro occ; simp [visibleAux]
  | cons a rest ih =>
    intro occ
    simp only [visibleAux]
    by_cases hc : occ.any (blockedB tx ty (toPix a)) = true
    · rw [if_pos hc]
      exact ih occ
    · rw [if_neg hc]
      have hnb : ∀ q ∈ occ, blockedB tx ty (toPix a) q = false := by
        intro q hq
        rw [Bool.eq_false_iff]
        intro htrue
        exact hc (List.any_eq_true.mpr ⟨q, hq, htrue⟩)
      obtain ⟨ihp, ihq⟩ := ih (occ ++ [toPix a])
      constructor
      · simp only [List.map_cons]
        refine List.Pairwise.cons ?_ ihp
        intro p hp
        rw [blockedB_symm]
        exact ihq p hp (toPix a) (by simp)
      · intro p hp q hq
        simp only [List.map_cons, List.mem_cons] at hp
        rcases hp with rfl | hp2
        · exact hnb q hq
        · exact ihq p hp2 q (List.mem_append_left _ hq)

/-- Domination: every candidate is either accepted or blocked (at its own
position) by the initial occupancy or by an accepted position. -/
lemma visibleAux_dom (toPix : Rubber → ℚ × ℚ) (tx ty : ℚ) (l : List Rubber) :
    ∀ occ, ∀ r ∈ l, ∃ q,
      (q ∈ occ ∨ q ∈ (visibleAux toPix tx ty occ l).map toPix) ∧
      (toPix r = q ∨ blockedB tx ty (toPix r) q = true) := by
  induction l with
  | nil => intro occ r h; cases h
  | cons a rest ih =>
    intro occ r hr
    simp only [visibleAux]
    by_cases hc : occ.any (blockedB tx ty (toPix a)) = true
    · rw [if_pos hc]
      rcases List.mem_cons.mp hr with rfl | hr2
      · obtain ⟨q, hq, hbl⟩ := List.any_eq_true.mp hc
        exact ⟨q, Or.inl hq, Or.inr hbl⟩
      · exact ih occ r hr2
    · rw [if_neg hc]
      rcases List.mem_cons.mp hr with rfl | hr2
      · exact ⟨toPix r, Or.inr (by simp), Or.inl rfl⟩
      · obtain ⟨q, hq, hrel⟩ := ih (occ ++ [toPix a]) r hr2
        refine ⟨q, ?_, hrel⟩
        rcases hq with hq | hq
        · rcases List.mem_append.mp hq with h | h
          · exact Or.inl h
          · simp only [List.mem_singleton] at h
            subst h
            exact Or.inr (by simp)
        · exact Or.inr (by simp [hq])

/-- When both thresholds at least double, the greedy pass accepts at most as
many items: each item accepted at the larger thresholds is matched
injectively to an accepted item of the smaller run that it equals or that
blocks it, because two distinct survivors of the larger run cannot share such
a partner when the larger thresholds are at least twice the smaller. -/
lemma greedy_count_le (toPix : Rubber → ℚ × ℚ) (tx ty tx2 ty2 : ℚ)
    (htx : 0 < tx) (hty : 0 < ty) (h2x : 2 * tx ≤ tx2) (h2y : 2 * ty ≤ ty2)
    (l : List Rubber) :
    (visibleAux toPix tx2 ty2 [] l).length ≤ (visibleAux toPix tx ty [] l).length := by
  classical
  set A := (visibleAux toPix tx ty [] l).map toPix with hA
  set A2 := (visibleAux toPix tx2 ty2 [] l).map toPix with hA2
  have htx2 : 0 < tx2 := lt_of_lt_of_le (by linarith) h2x
  have hty2 : 0 < ty2 := lt_of_lt_of_le (by linarith) h2y
  have hsep2 : A2.Pairwise (fun p q => blockedB tx2 ty2 p q = false) :=
    (visibleAux_sep toPix tx2 ty2 l []).1
  have hnodup : A2.Nodup := by
    refine hsep2.imp ?_
    intro p q hpq heq
    rw [heq] at hpq
    have hself : blockedB tx2 ty2 q q = true := by
      rw [blockedB_eq_true_iff]
      simpa using ⟨htx2, hty2⟩
    rw [hself] at hpq
    cases hpq
  have hex : ∀ p ∈ A2, ∃ q, q ∈ A ∧ (p = q ∨ blockedB tx ty p q = true) := by
    intro p hp
    obtain ⟨r, hr, rfl⟩ := List.mem_map.mp hp
    have hrl : r ∈ l := visibleAux_subset toPix tx2 ty2 l [] r hr
    obtain ⟨q, hq, hrel⟩ := visibleAux_dom toPix tx ty l [] r hrl
    rcases hq with hq | hq
    · cases hq
    · exact ⟨q, hq, hrel⟩
  have hcard : A2.toFinset.card ≤ A.toFinset.card := by
    refine Finset.card_le_card_of_injOn
      (fun p => if hp : ∃ q, q ∈ A ∧ (p = q ∨ blockedB tx ty p q = true)
                then hp.choose else p) ?_ ?_
    · intro p hp
      rw [List.mem_toFinset] at hp
      have h := hex p hp
      dsimp only
      rw [dif_pos h]
      exact List.mem_toFinset.mpr h.choose_spec.1
    · intro p1 hp1 p2 hp2 hfeq
      rw [Finset.mem_coe, List.mem_toFinset] at hp1 hp2
      have h1 := hex p1 hp1
      have h2 := hex p2 hp2
      dsimp only at hfeq
      rw [dif_pos h1, dif_pos h2] at hfeq
      by_contra hne
      have hrel : blockedB tx2 ty2 p1 p2 = false := by
        have hsym : Symmetric (fun p q : ℚ × ℚ => blockedB tx2 ty2 p q = false) := by
          intro a b hab
          rw [blockedB_symm]
          exact hab
        exact hsep2.forall hsym hp1 hp2 hne
      have hc1 := h1.choose_spec.2
      have hc2 := h2.choose_spec.2
      rw [← hfeq] at hc2
      have habs : blockedB tx2 ty2 p1 p2 = true := by
        rw [blockedB_eq_true_iff]
        rcases hc1 with he1 | hb1 <;> rcases hc2 with he2 | hb2
        · exact absurd (he1.trans he2.symm) hne
        · rw [blockedB_eq_true_iff, ← he1] at hb2
          constructor
          · rw [abs_sub_comm]
            linarith [hb2.1]
          · rw [abs_sub_comm]
            linarith [hb2.2]
        · rw [blockedB_eq_true_iff, ← he2] at hb1
          exact ⟨by linarith [hb1.1], by linarith [hb1.2]⟩
        · rw [blockedB_eq_true_iff] at hb1 hb2
          constructor
          · have t1 : |p1.1 - p2.1| ≤ |p1.1 - h1.choose.1| + |h1.choose.1 - p2.1| :=
              abs_sub_le _ _ _
            rw [abs_sub_comm h1.choose.1 p2.1] at t1
            linarith [hb1.1, hb2.1]
          · have t1 : |p1.2 - p2.2| ≤ |p1.2 - h1.choose.2| + |h1.choose.2 - p2.2| :=
              abs_sub_le _ _ _
            rw [abs_sub_comm h1.choose.2 p2.2] at t1
            linarith [hb1.2, hb2.2]
      rw [habs] at hrel
      cases hrel
  calc (visibleAux toPix tx2 ty2 [] l).length
      = A2.length := (List.length_map _ _).symm
    _ = A2.toFinset.card := (List.toFinset_card_of_nodup hnodup).symm
    _ ≤ A.toFinset.card := hcard
    _ ≤ A.length := List.toFinset_card_le _
    _ = (visibleAux toPix tx ty [] l).length := List.length_map _ _

/-- An item's chart x-coordinate from its 1-based spin rank: when the spin
rank is assigned, `x = spinTableSize - spinRank + 1`, and the rank is at
least 1. -/
lemma applyRankings_x_of_spinRank (spinT speedT controlT priT bestT : List RankEntry)
    (raw : RawRubber) (s : ℤ)
    (hs : (applyRankings spinT speedT controlT priT bestT raw).spinRank = some s) :
    (applyRankings spinT speedT controlT priT bestT raw).x
      = some ((spinT.length : ℤ) - s + 1) ∧ 1 ≤ s := by
  simp only [applyRankings] at hs ⊢
  by_cases h : 0 ≤ findRubberRank raw spinT
  · rw [if_pos h] at hs
    have hv := Option.some.inj hs
    rw [if_pos h]
    constructor
    · rw [← hv]
      congr 1
      ring
    · omega
  · rw [if_neg h] at hs
    cases hs

/-- An item's chart y-coordinate from its 1-based speed rank: when the speed
rank is assigned, `y = speedTableSize - speedRank + 1`, and the rank is at
least 1. -/
lemma applyRankings_y_of_speedRank (spinT speedT controlT priT bestT : List RankEntry)
    (raw : RawRubber) (s : ℤ)
    (hs : (applyRankings spinT speedT controlT priT bestT raw).speedRank = some s) :
    (applyRankings spinT speedT controlT priT bestT raw).y
      = some ((speedT.length : ℤ) - s + 1) ∧ 1 ≤ s := by
  simp only [applyRankings] at hs ⊢
  by_cases h : 0 ≤ findRubberRank raw speedT
  · rw [if_pos h] at hs
    have hv := Option.some.inj hs
    rw [if_pos h]
    constructor
    · rw [← hv]
      congr 1
      ring
    · omega
  · rw [if_neg h] at hs
    cases hs

/-- A successful table lookup yields an index at least `i` and below
`i + length`. -/
lemma findRubberRankAux_range (rubber : RawRubber) :
    ∀ (es : List RankEntry) (i : ℕ),
      findRubberRankAux rubber i es = -1 ∨
      ((i : ℤ) ≤ findRubberRankAux rubber i es ∧
        findRubberRankAux rubber i es < (i : ℤ) + es.length) := by
  intro es
  induction es with
  | nil => intro i; exact Or.inl rfl
  | cons e es ih =>
    intro i
    simp only [findRubberRankAux]
    by_cases h : normBrand e.brand = normBrand rubber.brand ∧
        (e.name = rubber.name ∨ e.name = rubber.abbr)
    · rw [if_pos h]
      right
      refine ⟨le_refl _, ?_⟩
      simp only [List.length_cons]
      push_cast
      omega
    · rw [if_neg h]
      rcases ih (i + 1) with h1 | h2
      · exact Or.inl h1
      · right
        simp only [List.length_cons]
        push_cast at h2 ⊢
        omega

/-- A found rank index is below the table length. -/
lemma findRubberRank_lt_length (raw : RawRubber) (arr : List RankEntry)
    (h : 0 ≤ findRubberRank raw arr) :
    findRubberRank raw arr < arr.length := by
  rcases findRubberRankAux_range raw arr 0 with h1 | h2
  · rw [findRubberRank] at h
    rw [h1] at h
    omega
  · rw [findRubberRank]
    simpa using h2.2

/-- Claim C1, counterexample: with two items at (0,0) and (10,10), window
[0,10]×[0,10], a zoom-out (`scale = 2`) about anchor fraction (1/4, 1/2) is
not refused, but the bounds-clamp shifts the window asymmetrically: the
data-space point under the x-anchor fraction moves from 5/2 to 9/4, a
difference of 1/4 — far beyond floating tolerance — so the anchor is not
preserved for every accepted zoom. -/
theorem C1_anchor_counterexample :
    computeZoomedRanges [⟨1, 0, 0, 1⟩, ⟨2, 10, 10, 2⟩] (0, 10) (0, 10) 2 (1/4) (1/2) =
      some ((-1/2, 21/2), (-1/2, 21/2))
    ∧ ((0 : ℚ) + (1/4) * (10 - 0)) - ((-1/2) + (1/4) * (21/2 - (-1/2))) = 1/4 := by
  constructor
  · norm_num [computeZoomedRanges, getAutoscaleBounds, listMin, listMax,
      viewCoversDataBounds, clampedScaleOf, clampRangeToBounds, MIN_SPAN_FRACTION,
      min_def, max_def]
  · norm_num

/-- Claim C1 (amended): whenever `computeZoomedRanges` returns a new window
and the zoom-out bounds-clamp does not engage (the effective clamped scale is
at most 1, or no autoscale bounds exist), the data-space point at fractional
position (anchorFx, anchorFy) of the old window is exactly the data-space
point at the same fractional position of the new window. -/
theorem C1_anchor_invariance_amended (filteredData : List Rubber)
    (xRange yRange : ℚ × ℚ)
    (scale anchorFx anchorFy : ℚ) (newWin : (ℚ × ℚ) × (ℚ × ℚ))
    (hnc : clampedScaleOf (getAutoscaleBounds filteredData)
        (xRange.2 - xRange.1) (yRange.2 - yRange.1) scale ≤ 1
      ∨ getAutoscaleBounds filteredData = none)
    (hres : computeZoomedRanges filteredData xRange yRange scale anchorFx anchorFy
      = some newWin) :
    newWin.1.1 + anchorFx * (newWin.1.2 - newWin.1.1)
        = xRange.1 + anchorFx * (xRange.2 - xRange.1)
    ∧ newWin.2.1 + anchorFy * (newWin.2.2 - newWin.2.1)
        = yRange.1 + anchorFy * (yRange.2 - yRange.1) := by
  cases hbnd : getAutoscaleBounds filteredData with
  | none =>
    simp only [computeZoomedRanges, hbnd] at hres
    split_ifs at hres
    simp only [Option.some.injEq] at hres
    subst hres
    constructor <;> ring
  | some b =>
    have hle : clampedScaleOf (some b)
        (xRange.2 - xRange.1) (yRange.2 - yRange.1) scale ≤ 1 := by
      rcases hnc with h | h
      · rwa [hbnd] at h
      · rw [h] at hbnd
        exact absurd hbnd (by simp)
    simp only [computeZoomedRanges, hbnd] at hres
    split_ifs at hres with h1 h2 hclamp
    · exact absurd hclamp (not_lt.mpr hle)
    · simp only [Option.some.injEq] at hres
      subst hres
      constructor <;> ring

/-- Claim C1 witness: a plain zoom-in (`scale = 1/2`, centered anchor) on the
two-item data set keeps the center point 5 at the center of the new window
[5/2, 15/2] on both axes. -/
theorem C1_anchor_invariance_amended_witness :
    ((5/2 : ℚ) + (1/2) * (15/2 - 5/2) = 0 + (1/2) * (10 - 0))
    ∧ ((5/2 : ℚ) + (1/2) * (15/2 - 5/2) = 0 + (1/2) * (10 - 0)) :=
  C1_anchor_invariance_amended [⟨1, 0, 0, 1⟩, ⟨2, 10, 10, 2⟩] (0, 10) (0, 10)
    (1/2) (1/2) (1/2) ((5/2, 15/2), (5/2, 15/2))
    (Or.inl (by norm_num [clampedScaleOf, getAutoscaleBounds, listMin, listMax,
      MIN_SPAN_FRACTION, min_def, max_def]))
    (by norm_num [computeZoomedRanges, getAutoscaleBounds, listMin, listMax,
      viewCoversDataBounds, clampedScaleOf, clampRangeToBounds, MIN_SPAN_FRACTION,
      min_def, max_def])

/-- Claim C2: for every current window whose x-range and y-range each fully
contain the autoscale bounds of the current (non-empty) filtered item set, a
zoom request with `scale > 1` is refused — `computeZoomedRanges` returns the
no-op result `none`, leaving the window unchanged. -/
theorem C2_zoom_out_refusal (filteredData : List Rubber) (b : Bounds)
    (xRange yRange : ℚ × ℚ) (scale anchorFx anchorFy : ℚ)
    (hb : getAutoscaleBounds filteredData = some b)
    (hx1 : xRange.1 ≤ b.x.1) (hx2 : b.x.2 ≤ xRange.2)
    (hy1 : yRange.1 ≤ b.y.1) (hy2 : b.y.2 ≤ yRange.2)
    (hs : 1 < scale) :
    computeZoomedRanges filteredData xRange yRange scale anchorFx anchorFy = none := by
  have hcov : viewCoversDataBounds filteredData xRange yRange = true := by
    unfold viewCoversDataBounds
    rw [hb]
    simp only [decide_eq_true_eq]
    exact ⟨hx1, hx2, hy1, hy2⟩
  simp only [computeZoomedRanges]
  split_ifs with h1 h2 <;>
    first
      | rfl
      | exact absurd ⟨hs, by simp [hb], hcov⟩ h2

/-- Claim C2 witness: the window [-1,11]² contains the autoscale bounds
[-1/2, 21/2]² of the two-item set, so a `scale = 2` zoom-out is refused. -/
theorem C2_zoom_out_refusal_witness :
    computeZoomedRanges [⟨1, 0, 0, 1⟩, ⟨2, 10, 10, 2⟩] (-1, 11) (-1, 11) 2 (1/2) (1/2)
      = none :=
  C2_zoom_out_refusal [⟨1, 0, 0, 1⟩, ⟨2, 10, 10, 2⟩]
    ⟨(-1/2, 21/2), (-1/2, 21/2)⟩ (-1, 11) (-1, 11) 2 (1/2) (1/2)
    (by norm_num [getAutoscaleBounds, listMin, listMax, min_def, max_def])
    (by norm_num) (by norm_num) (by norm_num) (by norm_num) (by norm_num)

/-- Claim C3, counterexample: data bounds are [-1/2, 21/2]² (5% of the x-span
is 11/20), yet a zoom-in request (`scale = 9/10`) on the degenerate-but-
positive window [100, 100.1]×[0, 10] produces a clamped scale above 1, and
the subsequent bounds-clamp returns an x-range [3991/40, 21/2] whose span is
negative — far below 5% of the autoscale x-span. -/
theorem C3_min_span_counterexample :
    getAutoscaleBounds [⟨1, 0, 0, 1⟩, ⟨2, 10, 10, 2⟩] =
      some ⟨(-1/2, 21/2), (-1/2, 21/2)⟩
    ∧ computeZoomedRanges [⟨1, 0, 0, 1⟩, ⟨2, 10, 10, 2⟩] (100, 1001/10) (0, 10)
        (9/10) (1/2) (1/2) = some ((3991/40, 21/2), (-1/2, 21/2))
    ∧ (21/2 : ℚ) - 3991/40 < ((21/2 : ℚ) - (-1/2)) * MIN_SPAN_FRACTION := by
  refine ⟨?_, ?_, by norm_num [MIN_SPAN_FRACTION]⟩
  · norm_num [getAutoscaleBounds, listMin, listMax, min_def, max_def]
  · norm_num [computeZoomedRanges, getAutoscaleBounds, listMin, listMax,
      viewCoversDataBounds, clampedScaleOf, clampRangeToBounds, MIN_SPAN_FRACTION,
      min_def, max_def]

/-- Claim C3 (amended): for a zoom-in request (`scale < 1`) on a window with
positive spans, when autoscale bounds exist and the effective clamped scale
stays at most 1 (so the zoom-out bounds-clamp does not engage), each axis
span of the returned window is at least `MIN_SPAN_FRACTION` (5%) of the
corresponding autoscale-bounds span. -/
theorem C3_zoom_in_min_span_amended (filteredData : List Rubber)
    (xRange yRange : ℚ × ℚ)
    (scale anchorFx anchorFy : ℚ) (b : Bounds) (newWin : (ℚ × ℚ) × (ℚ × ℚ))
    (hx : 0 < xRange.2 - xRange.1) (hy : 0 < yRange.2 - yRange.1)
    (hs : scale < 1)
    (hb : getAutoscaleBounds filteredData = some b)
    (hnc : clampedScaleOf (some b)
        (xRange.2 - xRange.1) (yRange.2 - yRange.1) scale ≤ 1)
    (hres : computeZoomedRanges filteredData xRange yRange scale anchorFx anchorFy
      = some newWin) :
    (b.x.2 - b.x.1) * MIN_SPAN_FRACTION ≤ newWin.1.2 - newWin.1.1
    ∧ (b.y.2 - b.y.1) * MIN_SPAN_FRACTION ≤ newWin.2.2 - newWin.2.1 := by
  have hxne : xRange.2 - xRange.1 ≠ 0 := ne_of_gt hx
  have hyne : yRange.2 - yRange.1 ≠ 0 := ne_of_gt hy
  have hclampX : (b.x.2 - b.x.1) * MIN_SPAN_FRACTION / (xRange.2 - xRange.1)
      ≤ clampedScaleOf (some b) (xRange.2 - xRange.1) (yRange.2 - yRange.1) scale := by
    simp only [clampedScaleOf, if_pos hs, if_pos hx, if_pos hy]
    exact le_trans (le_max_left _ _) (le_max_right _ _)
  have hclampY : (b.y.2 - b.y.1) * MIN_SPAN_FRACTION / (yRange.2 - yRange.1)
      ≤ clampedScaleOf (some b) (xRange.2 - xRange.1) (yRange.2 - yRange.1) scale := by
    simp only [clampedScaleOf, if_pos hs, if_pos hx, if_pos hy]
    exact le_trans (le_max_right _ _) (le_max_right _ _)
  simp only [computeZoomedRanges, hb] at hres
  split_ifs at hres with h1 h2 hclamp
  · exact absurd hclamp (not_lt.mpr hnc)
  · simp only [Option.some.injEq] at hres
    subst hres
    constructor
    · have h := mul_le_mul_of_nonneg_left hclampX (le_of_lt hx)
      rw [mul_div_cancel₀ _ hxne] at h
      calc (b.x.2 - b.x.1) * MIN_SPAN_FRACTION
          ≤ (xRange.2 - xRange.1) *
              clampedScaleOf (some b) (xRange.2 - xRange.1) (yRange.2 - yRange.1)
                scale := h
        _ = _ := by ring
    · have h := mul_le_mul_of_nonneg_left hclampY (le_of_lt hy)
      rw [mul_div_cancel₀ _ hyne] at h
      calc (b.y.2 - b.y.1) * MIN_SPAN_FRACTION
          ≤ (yRange.2 - yRange.1) *
              clampedScaleOf (some b) (xRange.2 - xRange.1) (yRange.2 - yRange.1)
                scale := h
        _ = _ := by ring

/-- Claim C3 witness: the `scale = 1/2` zoom-in on the window [0,10]² with the
two-item data set returns spans of 5, at least 5% of the bounds span 11. -/
theorem C3_zoom_in_min_span_amended_witness :
    ((21/2 : ℚ) - (-1/2)) * MIN_SPAN_FRACTION ≤ 15/2 - 5/2
    ∧ ((21/2 : ℚ) - (-1/2)) * MIN_SPAN_FRACTION ≤ 15/2 - 5/2 :=
  C3_zoom_in_min_span_amended [⟨1, 0, 0, 1⟩, ⟨2, 10, 10, 2⟩] (0, 10) (0, 10)
    (1/2) (1/2) (1/2) ⟨(-1/2, 21/2), (-1/2, 21/2)⟩ ((5/2, 15/2), (5/2, 15/2))
    (by norm_num) (by norm_num) (by norm_num)
    (by norm_num [getAutoscaleBounds, listMin, listMax, min_def, max_def])
    (by norm_num [clampedScaleOf, MIN_SPAN_FRACTION, min_def, max_def])
    (by norm_num [computeZoomedRanges, getAutoscaleBounds, listMin, listMax,
      viewCoversDataBounds, clampedScaleOf, clampRangeToBounds, MIN_SPAN_FRACTION,
      min_def, max_def])

/-- Claim C4: for every view window with positive x- and y-spans, the set of
items accepted by `computeVisibleRubbers` equals the specification's
selection: sort ascending by priority (ties stable) and greedily accept an
item exactly when, against every already-accepted pixel position, it is not
within both thresholds (rejected only when both axes are within threshold);
and in the concrete scenario of priorities [1,2,3] at pixel positions
(0,0), (10,0), (60,0) with x-threshold 55, exactly items 1 and 3 are
accepted and item 2 is absent from the result. -/
theorem C4_declutter_selection :
    (∀ (xRange yRange : ℚ × ℚ) (w h : ℚ) (l : List Rubber),
        0 < xRange.2 - xRange.1 → 0 < yRange.2 - yRange.1 →
        computeVisibleRubbers xRange yRange w h l
          = declutterSpec xRange yRange w h MIN_DIST_X MIN_DIST_Y l)
    ∧ computeVisibleRubbers (0, 100) (0, 100) 100 100
        [⟨1, 0, 0, 1⟩, ⟨2, 10, 0, 2⟩, ⟨3, 60, 0, 3⟩]
      = [⟨1, 0, 0, 1⟩, ⟨3, 60, 0, 3⟩] := by
  constructor
  · intro xRange yRange w h l hx hy
    unfold computeVisibleRubbers computeVisibleCore declutterSpec
    by_cases hl : l = []
    · subst hl
      simp [sortByPriority, declutterSpecAux]
    · rw [if_neg hl, if_neg (by push_neg; constructor <;> linarith)]
      exact visibleAux_eq_specAux _ _ _ _ _
  · norm_num [computeVisibleRubbers, computeVisibleCore, visibleAux, sortByPriority,
      insertByPriority, toPixel, blockedB, MIN_DIST_X, MIN_DIST_Y, abs, max_def]
    intro habs
    exact absurd habs (List.cons_ne_nil _ _)

/-- Claim C4 witness: the refinement applied at the scenario window and
candidate list. -/
theorem C4_declutter_selection_witness :
    computeVisibleRubbers (0, 100) (0, 100) 100 100
        [⟨1, 0, 0, 1⟩, ⟨2, 10, 0, 2⟩, ⟨3, 60, 0, 3⟩]
      = declutterSpec (0, 100) (0, 100) 100 100 MIN_DIST_X MIN_DIST_Y
        [⟨1, 0, 0, 1⟩, ⟨2, 10, 0, 2⟩, ⟨3, 60, 0, 3⟩] :=
  C4_declutter_selection.1 (0, 100) (0, 100) 100 100
    [⟨1, 0, 0, 1⟩, ⟨2, 10, 0, 2⟩, ⟨3, 60, 0, 3⟩] (by norm_num) (by norm_num)

/-- Claim C5, counterexample: strictly increasing both pixel thresholds from
(10,10) to (11,11) makes the greedy declutterer accept strictly more items
(3 instead of 2) on priorities [1,2,3,4] at pixel positions
(0,0), (10,0), (11,9), (12,-2): at the smaller thresholds item 2 is accepted
and then blocks items 3 and 4, while at the larger thresholds item 2 is
rejected and items 3 and 4 both survive. -/
theorem C5_threshold_monotonicity_counterexample :
    ((10 : ℚ) < 11 ∧ (10 : ℚ) < 11)
    ∧ (computeVisibleCore (0, 100) (0, 100) 100 100 10 10
        [⟨1, 0, 0, 1⟩, ⟨2, 10, 0, 2⟩, ⟨3, 11, 9, 3⟩, ⟨4, 12, -2, 4⟩]).length
      < (computeVisibleCore (0, 100) (0, 100) 100 100 11 11
        [⟨1, 0, 0, 1⟩, ⟨2, 10, 0, 2⟩, ⟨3, 11, 9, 3⟩, ⟨4, 12, -2, 4⟩]).length := by
  refine ⟨⟨by norm_num, by norm_num⟩, ?_⟩
  norm_num [computeVisibleCore, visibleAux, sortByPriority,
    insertByPriority, toPixel, blockedB, abs, max_def, List.cons_ne_nil]

/-- Claim C5 (amended): for every candidate list, view window and pixel
dimensions, and every pair of positive threshold pairs where the larger
thresholds are at least double the smaller (`2·tx ≤ tx₂`, `2·ty ≤ ty₂`), the
number of items accepted by the greedy declutter selection at the larger
thresholds is at most the number accepted at the smaller ones. -/
theorem C5_threshold_monotonicity_amended (xRange yRange : ℚ × ℚ)
    (w h tx ty tx2 ty2 : ℚ) (l : List Rubber)
    (htx : 0 < tx) (hty : 0 < ty) (h2x : 2 * tx ≤ tx2) (h2y : 2 * ty ≤ ty2) :
    (computeVisibleCore xRange yRange w h tx2 ty2 l).length
      ≤ (computeVisibleCore xRange yRange w h tx ty l).length := by
  unfold computeVisibleCore
  by_cases hl : l = []
  · simp [hl]
  · rw [if_neg hl, if_neg hl]
    by_cases hsp : xRange.2 - xRange.1 ≤ 0 ∨ yRange.2 - yRange.1 ≤ 0
    · rw [if_pos hsp, if_pos hsp]
    · rw [if_neg hsp, if_neg hsp]
      exact greedy_count_le _ tx ty tx2 ty2 htx hty h2x h2y _

/-- Claim C5 witness: doubling the thresholds from (10,10) to (20,20) on the
four-item scenario does not increase the accepted count. -/
theorem C5_threshold_monotonicity_amended_witness :
    (computeVisibleCore (0, 100) (0, 100) 100 100 20 20
        [⟨1, 0, 0, 1⟩, ⟨2, 10, 0, 2⟩, ⟨3, 11, 9, 3⟩, ⟨4, 12, -2, 4⟩]).length
      ≤ (computeVisibleCore (0, 100) (0, 100) 100 100 10 10
        [⟨1, 0, 0, 1⟩, ⟨2, 10, 0, 2⟩, ⟨3, 11, 9, 3⟩, ⟨4, 12, -2, 4⟩]).length :=
  C5_threshold_monotonicity_amended (0, 100) (0, 100) 100 100 10 10 20 20
    [⟨1, 0, 0, 1⟩, ⟨2, 10, 0, 2⟩, ⟨3, 11, 9, 3⟩, ⟨4, 12, -2, 4⟩]
    (by norm_num) (by norm_num) (by norm_num) (by norm_num)

/-- Claim C6: for every item found in both rank tables, the assigned chart
coordinates satisfy `x = spinTableSize - spinRank + 1` and
`y = speedTableSize - speedRank + 1` with 1-based ranks; both coordinates are
strictly decreasing in the corresponding rank; rank 1 maps to the maximum
coordinate (the table size, an upper bound for all items); and an item at
1-based spin rank 2 in a table of size 3 gets `x = 2`. -/
theorem C6_rank_to_coordinate :
    (∀ (spinT speedT controlT priT bestT : List RankEntry) (raw : RawRubber) (s : ℤ),
       (applyRankings spinT speedT controlT priT bestT raw).spinRank = some s →
       (applyRankings spinT speedT controlT priT bestT raw).x
         = some ((spinT.length : ℤ) - s + 1))
    ∧ (∀ (spinT speedT controlT priT bestT : List RankEntry) (raw : RawRubber) (s : ℤ),
       (applyRankings spinT speedT controlT priT bestT raw).speedRank = some s →
       (applyRankings spinT speedT controlT priT bestT raw).y
         = some ((speedT.length : ℤ) - s + 1))
    ∧ (∀ (spinT speedT controlT priT bestT : List RankEntry) (raw1 raw2 : RawRubber)
         (s1 s2 x1 x2 : ℤ),
       (applyRankings spinT speedT controlT priT bestT raw1).spinRank = some s1 →
       (applyRankings spinT speedT controlT priT bestT raw2).spinRank = some s2 →
       (applyRankings spinT speedT controlT priT bestT raw1).x = some x1 →
       (applyRankings spinT speedT controlT priT bestT raw2).x = some x2 →
       s1 < s2 → x2 < x1)
    ∧ (∀ (spinT speedT controlT priT bestT : List RankEntry) (raw1 raw2 : RawRubber)
         (s1 s2 y1 y2 : ℤ),
       (applyRankings spinT speedT controlT priT bestT raw1).speedRank = some s1 →
       (applyRankings spinT speedT controlT priT bestT raw2).speedRank = some s2 →
       (applyRankings spinT speedT controlT priT bestT raw1).y = some y1 →
       (applyRankings spinT speedT controlT priT bestT raw2).y = some y2 →
       s1 < s2 → y2 < y1)
    ∧ (∀ (spinT speedT controlT priT bestT : List RankEntry) (raw : RawRubber) (s xv : ℤ),
       (applyRankings spinT speedT controlT priT bestT raw).spinRank = some s →
       (applyRankings spinT speedT controlT priT bestT raw).x = some xv →
       xv ≤ spinT.length)
    ∧ (∀ (spinT speedT controlT priT bestT : List RankEntry) (raw : RawRubber),
       (applyRankings spinT speedT controlT priT bestT raw).spinRank = some 1 →
       (applyRankings spinT speedT controlT priT bestT raw).x = some (spinT.length : ℤ))
    ∧ ((applyRankings [⟨"b", "A"⟩, ⟨"b", "B"⟩, ⟨"b", "C"⟩]
          [⟨"b", "A"⟩, ⟨"b", "B"⟩, ⟨"b", "C"⟩] [] [] [] ⟨"b", "B", "B"⟩).spinRank = some 2
       ∧ (applyRankings [⟨"b", "A"⟩, ⟨"b", "B"⟩, ⟨"b", "C"⟩]
          [⟨"b", "A"⟩, ⟨"b", "B"⟩, ⟨"b", "C"⟩] [] [] [] ⟨"b", "B", "B"⟩).x = some 2) := by
  refine ⟨?_, ?_, ?_, ?_, ?_, ?_, ?_⟩
  · intro spinT speedT controlT priT bestT raw s hs
    exact (applyRankings_x_of_spinRank spinT speedT controlT priT bestT raw s hs).1
  · intro spinT speedT controlT priT bestT raw s hs
    exact (applyRankings_y_of_speedRank spinT speedT controlT priT bestT raw s hs).1
  · intro spinT speedT controlT priT bestT raw1 raw2 s1 s2 x1 x2 h1 h2 hx1 hx2 hlt
    have e1 := (applyRankings_x_of_spinRank spinT speedT controlT priT bestT raw1 s1 h1).1
    have e2 := (applyRankings_x_of_spinRank spinT speedT controlT priT bestT raw2 s2 h2).1
    rw [hx1] at e1
    rw [hx2] at e2
    have v1 := Option.some.inj e1
    have v2 := Option.some.inj e2
    omega
  · intro spinT speedT controlT priT bestT raw1 raw2 s1 s2 y1 y2 h1 h2 hy1 hy2 hlt
    have e1 := (applyRankings_y_of_speedRank spinT speedT controlT priT bestT raw1 s1 h1).1
    have e2 := (applyRankings_y_of_speedRank spinT speedT controlT priT bestT raw2 s2 h2).1
    rw [hy1] at e1
    rw [hy2] at e2
    have v1 := Option.some.inj e1
    have v2 := Option.some.inj e2
    omega
  · intro spinT speedT controlT priT bestT raw s xv hs hx
    obtain ⟨e, hs1⟩ := applyRankings_x_of_spinRank spinT speedT controlT priT bestT raw s hs
    rw [hx] at e
    have v := Option.some.inj e
    omega
  · intro spinT speedT controlT priT bestT raw hs
    obtain ⟨e, -⟩ := applyRankings_x_of_spinRank spinT speedT controlT priT bestT raw 1 hs
    rw [e]
    congr 1
    ring
  · constructor <;> simp [applyRankings, findRubberRank, findRubberRankAux]

/-- Claim C6 witness: the coordinate formula applied to the concrete item at
spin rank 2 in the size-3 table. -/
theorem C6_rank_to_coordinate_witness :
    (applyRankings [⟨"b", "A"⟩, ⟨"b", "B"⟩, ⟨"b", "C"⟩]
        [⟨"b", "A"⟩, ⟨"b", "B"⟩, ⟨"b", "C"⟩] [] [] [] ⟨"b", "B", "B"⟩).x
      = some ((([⟨"b", "A"⟩, ⟨"b", "B"⟩, ⟨"b", "C"⟩] : List RankEntry).length : ℤ) - 2 + 1) :=
  C6_rank_to_coordinate.1 [⟨"b", "A"⟩, ⟨"b", "B"⟩, ⟨"b", "C"⟩]
    [⟨"b", "A"⟩, ⟨"b", "B"⟩, ⟨"b", "C"⟩] [] [] [] ⟨"b", "B", "B"⟩ 2
    (by simp [applyRankings, findRubberRank, findRubberRankAux])

/-- Claim C7: every item of the visualized set built by `loadRubberData` has
both a valid spin rank and a valid speed rank, and every item missing a
position in the spin or the speed table is excluded from the visualized set
entirely; the exclusion is by total functions, raising no error. -/
theorem C7_missing_rank_exclusion :
    (∀ (spinT speedT controlT priT bestT : List RankEntry) (raws : List RawRubber)
       (r : LoadedRubber),
       r ∈ loadRubberData spinT speedT controlT priT bestT raws →
       r.spinRank.isSome ∧ r.speedRank.isSome)
    ∧ (∀ (spinT speedT controlT priT bestT : List RankEntry) (raws : List RawRubber)
       (raw : RawRubber), raw ∈ raws →
       (findRubberRank raw spinT < 0 ∨ findRubberRank raw speedT < 0) →
       applyRankings spinT speedT controlT priT bestT raw
         ∉ loadRubberData spinT speedT controlT priT bestT raws) := by
  constructor
  · intro spinT speedT controlT priT bestT raws r hr
    unfold loadRubberData at hr
    have hp := (List.mem_filter.mp hr).2
    have hm := (List.mem_filter.mp hr).1
    obtain ⟨raw, hraw, rfl⟩ := List.mem_map.mp hm
    simp only [Bool.and_eq_true] at hp
    constructor
    · by_cases h : 0 ≤ findRubberRank raw spinT
      · simp [applyRankings, h]
      · exfalso
        have hx := hp.1
        simp [applyRankings, h] at hx
    · by_cases h : 0 ≤ findRubberRank raw speedT
      · simp [applyRankings, h]
      · exfalso
        have hy := hp.2
        simp [applyRankings, h] at hy
  · intro spinT speedT controlT priT bestT raws raw hraw hbad hmem
    unfold loadRubberData at hmem
    have hp := (List.mem_filter.mp hmem).2
    simp only [Bool.and_eq_true] at hp
    rcases hbad with hb | hb
    · have hx := hp.1
      simp [applyRankings, not_le.mpr hb] at hx
    · have hy := hp.2
      simp [applyRankings, not_le.mpr hb] at hy

/-- Claim C7 witness: an item absent from the spin table is not in the
visualized set built from a two-item catalog. -/
theorem C7_missing_rank_exclusion_witness :
    applyRankings [⟨"b", "A"⟩] [⟨"b", "A"⟩] [] [] [] ⟨"b", "Z", "Z"⟩
      ∉ loadRubberData [⟨"b", "A"⟩] [⟨"b", "A"⟩] [] [] []
          [⟨"b", "A", "A"⟩, ⟨"b", "Z", "Z"⟩] :=
  C7_missing_rank_exclusion.2 [⟨"b", "A"⟩] [⟨"b", "A"⟩] [] [] []
    [⟨"b", "A", "A"⟩, ⟨"b", "Z", "Z"⟩] ⟨"b", "Z", "Z"⟩ (by simp)
    (Or.inl (by simp [findRubberRank, findRubberRankAux]))

/-- Claim C8: for every input value and every pair of 3-point anchor lists
that are monotonically increasing, `interpolateScale` picks the first
adjacent source segment with `value ≤ a_{i+1}` (otherwise the last segment)
and returns `b_i + t * (b_{i+1} - b_i)` with the unclamped
`t = (value - a_i) / (a_{i+1} - a_i)`, so out-of-range values extrapolate
along the nearest segment's slope; and converting Japan value 36 (anchors
[33,36,44]) to the German scale (anchors [40,47.5,55]) yields exactly
47.5. -/
theorem C8_hardness_conversion (v a0 a1 a2 b0 b1 b2 : ℚ)
    (hA0 : a0 < a1) (hA1 : a1 < a2) (hB0 : b0 < b1) (hB1 : b1 < b2) :
    interpolateScale v [a0, a1, a2] [b0, b1, b2] =
      (if v ≤ a1 then b0 + (v - a0) / (a1 - a0) * (b1 - b0)
       else b1 + (v - a1) / (a2 - a1) * (b2 - b1))
    ∧ interpolateScale 36 HARDNESS_SCALES_Japan HARDNESS_SCALES_Germany = 47.5 := by
  constructor
  · by_cases h : v ≤ a1
    · simp [interpolateScale, h]
    · simp [interpolateScale, h]
  · norm_num [interpolateScale, HARDNESS_SCALES_Japan, HARDNESS_SCALES_Germany]

/-- Claim C8 witness: the characterization applied at the extrapolating input
50 on the Japan → Germany anchors. -/
theorem C8_hardness_conversion_witness :
    interpolateScale 50 [33, 36, 44] [40, 47.5, 55] =
      (if (50 : ℚ) ≤ 36 then 40 + (50 - 33) / (36 - 33) * (47.5 - 40)
       else 47.5 + (50 - 36) / (44 - 36) * (55 - 47.5))
    ∧ interpolateScale 36 HARDNESS_SCALES_Japan HARDNESS_SCALES_Germany = 47.5 :=
  C8_hardness_conversion 50 33 36 44 40 47.5 55 (by norm_num) (by norm_num)
    (by norm_num) (by norm_num)

/-- Claim C9, counterexample: in a pipeline whose control table has 12
entries but whose visualized items have observed control ranks 5–9 (so
`controlFilterState` records `rankMin = 5`, `rankMax = 9`), the item at
control rank 9 gets tier `Hard` from `getControlTierFromRank`, while
normalizing the same rank over the control table size 12 as the claim states
gives tier `Med`: the code normalizes over the observed rank range, not the
table size. -/
theorem C9_control_tier_counterexample :
    controlBounds (loadRubberData c9SpinSpeedTable c9SpinSpeedTable c9ControlTable [] [] c9Raws)
      = some (5, 9)
    ∧ (applyRankings c9SpinSpeedTable c9SpinSpeedTable c9ControlTable [] [] ⟨"b", "c9", "c9"⟩)
        ∈ loadRubberData c9SpinSpeedTable c9SpinSpeedTable c9ControlTable [] [] c9Raws
    ∧ (applyRankings c9SpinSpeedTable c9SpinSpeedTable c9ControlTable [] []
        ⟨"b", "c9", "c9"⟩).controlRank = some 9
    ∧ (applyRankings c9SpinSpeedTable c9SpinSpeedTable c9ControlTable [] []
        ⟨"b", "c9", "c9"⟩).controlTotal = 12
    ∧ getControlTierFromRank (some 9) (some 5) (some 9) = some Tier.Hard
    ∧ specControlTier 9 12 = some Tier.Med
    ∧ getControlTierFromRank (some 9) (some 5) (some 9) ≠ specControlTier 9 12 := by
  refine ⟨?_, ?_, ?_, ?_, ?_, ?_, ?_⟩
  · simp [controlBounds, loadRubberData, c9SpinSpeedTable, c9ControlTable, c9Raws,
      applyRankings, findRubberRank, findRubberRankAux, min_def, max_def]
  · simp [loadRubberData, c9SpinSpeedTable, c9ControlTable, c9Raws,
      applyRankings, findRubberRank, findRubberRankAux]
  · simp [applyRankings, findRubberRank, findRubberRankAux, c9SpinSpeedTable,
      c9ControlTable]
  · simp [applyRankings, c9ControlTable]
  · norm_num [getControlTierFromRank, min_def, max_def]
  · norm_num [specControlTier]
  · norm_num [getControlTierFromRank, specControlTier, min_def, max_def]
    decide

/-- Claim C9 (amended): for every item with a valid control rank and a
non-empty observed rank window, the Easy/Med/Hard tier is obtained by
normalizing the rank's clamped offset within the observed control-rank range
[rankMin, rankMax] into [0,1) over `totalRanks = rankMax - rankMin + 1` and
bucketing with thresholds at 40% and 80% of this normalized range (so the
best-ranked 40% of the observed range falls in Easy, the next up to 80% in
Med, and the rest in Hard); the normalized value always lies in [0,1). -/
theorem C9_control_tier_amended (rk rmin rmax : ℤ) (htot : 0 < rmax - rmin + 1) :
    getControlTierFromRank (some rk) (some rmin) (some rmax)
      = some (if ((max 0 (min (rmax - rmin) (rk - rmin)) : ℤ) : ℚ)
                  / ((rmax - rmin + 1 : ℤ) : ℚ) < 0.4 then Tier.Easy
              else if ((max 0 (min (rmax - rmin) (rk - rmin)) : ℤ) : ℚ)
                  / ((rmax - rmin + 1 : ℤ) : ℚ) < 0.8 then Tier.Med else Tier.Hard)
    ∧ 0 ≤ ((max 0 (min (rmax - rmin) (rk - rmin)) : ℤ) : ℚ) / ((rmax - rmin + 1 : ℤ) : ℚ)
    ∧ ((max 0 (min (rmax - rmin) (rk - rmin)) : ℤ) : ℚ) / ((rmax - rmin + 1 : ℤ) : ℚ) < 1 := by
  have hz : rmax - rmin + 1 - 1 = rmax - rmin := by ring
  have hTQ : (0 : ℚ) < ((rmax - rmin + 1 : ℤ) : ℚ) := by exact_mod_cast htot
  have hz0 : (0 : ℤ) ≤ max 0 (min (rmax - rmin) (rk - rmin)) := le_max_left _ _
  have hzT : max 0 (min (rmax - rmin) (rk - rmin)) < rmax - rmin + 1 := by
    have hm : min (rmax - rmin) (rk - rmin) ≤ rmax - rmin := min_le_left _ _
    omega
  refine ⟨?_, ?_, ?_⟩
  · simp only [getControlTierFromRank]
    rw [if_neg (not_le.mpr htot), hz]
  · refine div_nonneg ?_ (le_of_lt hTQ)
    exact_mod_cast hz0
  · rw [div_lt_one hTQ]
    exact_mod_cast hzT

/-- Claim C9 witness: the amended characterization applied at rank 9 with the
observed range [5, 9]. -/
theorem C9_control_tier_amended_witness :
    getControlTierFromRank (some 9) (some 5) (some 9)
      = some (if ((max 0 (min ((9 : ℤ) - 5) (9 - 5)) : ℤ) : ℚ)
                  / (((9 : ℤ) - 5 + 1 : ℤ) : ℚ) < 0.4 then Tier.Easy
              else if ((max 0 (min ((9 : ℤ) - 5) (9 - 5)) : ℤ) : ℚ)
                  / (((9 : ℤ) - 5 + 1 : ℤ) : ℚ) < 0.8 then Tier.Med else Tier.Hard)
    ∧ 0 ≤ ((max 0 (min ((9 : ℤ) - 5) (9 - 5)) : ℤ) : ℚ) / (((9 : ℤ) - 5 + 1 : ℤ) : ℚ)
    ∧ ((max 0 (min ((9 : ℤ) - 5) (9 - 5)) : ℤ) : ℚ) / (((9 : ℤ) - 5 + 1 : ℤ) : ℚ) < 1 :=
  C9_control_tier_amended 9 5 9 (by norm_num)

/-- Claim C10: provided the bestseller table has fewer than 999 entries,
every item found in the bestseller table gets priority `bestsellerIdx + 1`,
strictly smaller than the priority of every item not in the bestseller table
(which is `bestsellerLength + priorityIdx + 1` or the default 999), so every
bestseller precedes every non-bestseller in the declutterer's priority
order. -/
theorem C10_bestseller_precedence (spinT speedT controlT priT bestT : List RankEntry)
    (raw1 raw2 : RawRubber)
    (hlen : bestT.length < 999)
    (h1 : (applyRankings spinT speedT controlT priT bestT raw1).bestseller = true)
    (h2 : (applyRankings spinT speedT controlT priT bestT raw2).bestseller = false) :
    (applyRankings spinT speedT controlT priT bestT raw1).priority
      < (applyRankings spinT speedT controlT priT bestT raw2).priority := by
  simp only [applyRankings, decide_eq_true_eq] at h1
  simp only [applyRankings, decide_eq_false_iff_not] at h2
  have hb1lt : findRubberRank raw1 bestT < bestT.length :=
    findRubberRank_lt_length raw1 bestT h1
  have hlenZ : (bestT.length : ℤ) < 999 := by exact_mod_cast hlen
  simp only [applyRankings]
  rw [if_pos h1, if_neg h2]
  by_cases hp : 0 ≤ findRubberRank raw2 priT
  · rw [if_pos hp]
    omega
  · rw [if_neg hp]
    omega

/-- Claim C10 witness: with a one-entry bestseller table, the bestseller item
gets priority 1, below the default 999 of a non-bestseller item. -/
theorem C10_bestseller_precedence_witness :
    (applyRankings [] [] [] [] [⟨"b", "X"⟩] ⟨"b", "X", "X"⟩).priority
      < (applyRankings [] [] [] [] [⟨"b", "X"⟩] ⟨"b", "Y", "Y"⟩).priority :=
  C10_bestseller_precedence [] [] [] [] [⟨"b", "X"⟩] ⟨"b", "X", "X"⟩ ⟨"b", "Y", "Y"⟩
    (by norm_num)
    (by simp [applyRankings, findRubberRank, findRubberRankAux])
    (by simp [applyRankings, findRubberRank, findRubberRankAux])
